import Mathlib

/-!
Shallow embedding of the `libaitfoaq` Jeopardy-style game core
(`src/libaitfoaq/src/lib.rs`, `src/libaitfoaq/src/state.rs`,
`src/libaitfoaq/src/events.rs`) and of the single-writer actor step of the
server (`src/server/src/state.rs`).

Modelling conventions:
* Rust `Vec` becomes `List`, `i32` points become `Int` (no claim exercises
  32-bit overflow), `usize` handles become `Nat`.
* Every transition method `fn f(&mut self, ...) -> Result<(), Error>` becomes
  a pure function `Game → ... → Game × Option Error` returning the post-state
  together with the error, so that mutation (or its absence) on each path is
  explicit.  In the source every `return Err(...)` happens before any field is
  written, which the embedding mirrors by returning the input state unchanged
  on those paths.
* `Game::random_contestant` derives entropy from the memory addresses of the
  contestants' name strings (`as_ptr()`), which a pure embedding cannot
  compute; the entropy word is therefore an oracle parameter `rnd : Nat`
  supplied to each step, reduced modulo the contestant count exactly as the
  source does (`random % self.contestants.len()`).  Rust `%` by zero aborts
  the process; Lean's `%` is total, but `random_contestant` is only reached
  with a non-empty registry in all the states the claims touch.
* The `_ => todo!("other events")` arm of `Game::apply` aborts the process
  when it is reached (the `Settings` command); the embedding returns the
  distinguished outcome `RustResult.diverged` for it.
-/

namespace Aitfoaq

abbrev Points := Int

abbrev ContestantHandle := Nat

abbrev ClueHandle := Nat × Nat

/-- Embeds `Clue` from `src/libaitfoaq/src/state.rs`. -/
structure Clue where
  clue : String
  response : String
  hint : String
  points : Points
  can_wager : Bool
  exclusive : Bool
  solved : Bool
deriving DecidableEq

/-- Embeds `Category` from `src/libaitfoaq/src/state.rs`. -/
structure Category where
  title : String
  clues : List Clue
deriving DecidableEq

/-- Embeds `Board` from `src/libaitfoaq/src/state.rs`. -/
structure Board where
  categories : List Category
deriving DecidableEq

/-- Embeds `Contestant` from `src/libaitfoaq/src/state.rs`. -/
structure Contestant where
  name : Option String
  name_hint : String
  points : Points
  indicate : Bool
  connected : Bool
deriving DecidableEq

/-- Embeds `GamePhase` from `src/libaitfoaq/src/state.rs`.  The `Resolution` variant
carries the `show_hint` flag that `lib.rs` constructs and matches on. -/
inductive GamePhase where
  | Preparing
  | Connecting
  | Picking (contestant : ContestantHandle)
  | Waging (clue : ClueHandle) (contestant : ContestantHandle)
  | Clue (clue : ClueHandle) (exclusive : Option ContestantHandle)
  | Buzzing (clue : ClueHandle)
  | Buzzed (clue : ClueHandle) (contestant : ContestantHandle)
  | Resolution (clue : ClueHandle) (contestant : ContestantHandle) (show_hint : Bool)
  | Score
deriving DecidableEq

/-- Embeds `Options` from `src/libaitfoaq/src/state.rs`: a record with no fields
(all options are commented out in the source). -/
structure Options where
deriving DecidableEq

/-- Embeds `Error` from `src/libaitfoaq/src/lib.rs`. -/
inductive Error where
  | WrongPhase (is : GamePhase)
  | ContestantNotFound
  | NoContestants
  | ClueNotFound
deriving DecidableEq

/-- Embeds `Game` from `src/libaitfoaq/src/lib.rs`. -/
structure Game where
  phase : GamePhase
  board : Board
  contestants : List Contestant
  options : Options
deriving DecidableEq

/-- Embeds `GameState` from `src/libaitfoaq/src/state.rs`: the snapshot type. -/
structure GameState where
  contestants : List Contestant
  board : Board
  phase : GamePhase
  options : Options
deriving DecidableEq

/-- Embeds `Event` from `src/libaitfoaq/src/events.rs`, extended with the
`AwardPoints` / `RevokePoints` variants that `Game::apply` matches on (their
declaration is in a newer iteration of `events.rs` than the one committed;
fields follow the spec's command list `AwardPoints{contestant,points}`). -/
inductive Event where
  | Settings
  | LoadBoard (board : Board)
  | OpenLobby
  | ConnectContestant (name_hint : String)
  | DisconnectContestant (contestant : ContestantHandle)
  | ReconnectContestant (contestant : ContestantHandle)
  | NameContestant (index : Nat) (name : String)
  | StartGame
  | Pick (clue : ClueHandle)
  | SetWage (points : Points)
  | ClueFullyShown
  | Buzz (contestant : ContestantHandle)
  | AcceptAnswer
  | RejectAnswer
  | RevealHint
  | FinishClue
  | AwardPoints (contestant : ContestantHandle) (points : Points)
  | RevokePoints (contestant : ContestantHandle) (points : Points)
deriving DecidableEq

/-- Embeds `Board::get` from `src/libaitfoaq/src/state.rs`. -/
def Board.get (b : Board) (clue : ClueHandle) : Except Error Clue :=
  match b.categories.get? clue.1 with
  | none => .error .ClueNotFound
  | some cat =>
    match cat.clues.get? clue.2 with
    | none => .error .ClueNotFound
    | some c => .ok c

/-- Embeds `Board::mark_solved` from `src/libaitfoaq/src/state.rs`: `get_mut` the
clue (failing with `ClueNotFound` exactly when either index is out of range)
and set its `solved` flag. -/
def Board.mark_solved (b : Board) (clue : ClueHandle) : Except Error Board :=
  match b.categories.get? clue.1 with
  | none => .error .ClueNotFound
  | some cat =>
    match cat.clues.get? clue.2 with
    | none => .error .ClueNotFound
    | some c =>
      .ok ⟨b.categories.set clue.1 { cat with clues := cat.clues.set clue.2 { c with solved := true } }⟩

/-- Embeds `Game::new` from `src/libaitfoaq/src/lib.rs`. -/
def Game.new : Game :=
  { phase := .Preparing, board := { categories := [] }, contestants := [], options := {} }

/-- Embeds `Game::get_game_state` from `src/libaitfoaq/src/lib.rs`. -/
def Game.get_game_state (g : Game) : GameState :=
  { contestants := g.contestants, board := g.board, phase := g.phase, options := g.options }

/-- Embeds `Game::mark_all_contestants_as_disconnected` from `src/libaitfoaq/src/lib.rs`. -/
def Game.mark_all_contestants_as_disconnected (g : Game) : Game :=
  { g with contestants := g.contestants.map fun c => { c with connected := false } }

/-- Embeds `Game::random_contestant` from `src/libaitfoaq/src/lib.rs`.  The fold over
name-string addresses is the oracle `rnd`; the source then reduces it modulo
the contestant count. -/
def Game.random_contestant (rnd : Nat) (g : Game) : ContestantHandle :=
  rnd % g.contestants.length

/-- Embeds `Game::load_board` from `src/libaitfoaq/src/lib.rs`. -/
def Game.load_board (g : Game) (board : Board) : Game × Option Error :=
  if g.phase = .Preparing then ({ g with board := board }, none)
  else (g, some (.WrongPhase g.phase))

/-- Embeds `Game::open_lobby` from `src/libaitfoaq/src/lib.rs`. -/
def Game.open_lobby (g : Game) : Game × Option Error :=
  if g.phase = .Preparing then ({ g with phase := .Connecting }, none)
  else (g, some (.WrongPhase g.phase))

/-- Embeds `Game::connect_contestant` from `src/libaitfoaq/src/lib.rs`. -/
def Game.connect_contestant (g : Game) (hint : String) : Game × Option Error :=
  if g.phase = .Connecting then
    ({ g with contestants := g.contestants ++
        [{ name := none, name_hint := hint, points := 0, indicate := false, connected := true }] },
     none)
  else (g, some (.WrongPhase g.phase))

/-- Embeds `Game::reconnect_contestant` from `src/libaitfoaq/src/lib.rs`. -/
def Game.reconnect_contestant (g : Game) (index : ContestantHandle) : Game × Option Error :=
  match g.contestants.get? index with
  | none => (g, some .ContestantNotFound)
  | some c => ({ g with contestants := g.contestants.set index { c with connected := true } }, none)

/-- Embeds `Game::disconnect_contestant` from `src/libaitfoaq/src/lib.rs`. -/
def Game.disconnect_contestant (g : Game) (index : ContestantHandle) : Game × Option Error :=
  match g.contestants.get? index with
  | none => (g, some .ContestantNotFound)
  | some c => ({ g with contestants := g.contestants.set index { c with connected := false } }, none)

/-- Embeds `Game::name_contestant` from `src/libaitfoaq/src/lib.rs`. -/
def Game.name_contestant (g : Game) (index : ContestantHandle) (name : String) : Game × Option Error :=
  match g.contestants.get? index with
  | none => (g, some .ContestantNotFound)
  | some c => ({ g with contestants := g.contestants.set index { c with name := some name } }, none)

/-- Embeds `Game::modify_score` from `src/libaitfoaq/src/lib.rs`. -/
def Game.modify_score (g : Game) (index : ContestantHandle) (points : Points) : Game × Option Error :=
  match g.contestants.get? index with
  | none => (g, some .ContestantNotFound)
  | some c => ({ g with contestants := g.contestants.set index { c with points := c.points + points } }, none)

/-- Embeds `Game::start_game` from `src/libaitfoaq/src/lib.rs`: phase check, empty
check, then the phase is set to `Picking{random_contestant()}` (drawn on the
current registry) and every `indicate` flag is cleared. -/
def Game.start_game (rnd : Nat) (g : Game) : Game × Option Error :=
  if g.phase = .Connecting then
    if g.contestants.isEmpty then (g, some .NoContestants)
    else
      ({ g with phase := .Picking (g.random_contestant rnd),
                contestants := g.contestants.map fun c => { c with indicate := false } },
       none)
  else (g, some (.WrongPhase g.phase))

/-- Embeds `Game::pick` from `src/libaitfoaq/src/lib.rs`.  The target clue's
`exclusive` flag chooses whether the picker is carried into the `Clue` phase
(`exclusive.then_some(contestant)`); the `solved` flag is not consulted. -/
def Game.pick (g : Game) (clue : ClueHandle) : Game × Option Error :=
  match g.phase with
  | .Picking contestant =>
    match g.board.get clue with
    | .error e => (g, some e)
    | .ok c =>
      ({ g with phase := .Clue clue (if c.exclusive then some contestant else none) }, none)
  | _ => (g, some (.WrongPhase g.phase))

/-- Embeds `Game::clue_fully_shown` from `src/libaitfoaq/src/lib.rs`. -/
def Game.clue_fully_shown (g : Game) : Game × Option Error :=
  match g.phase with
  | .Clue clue none => ({ g with phase := .Buzzing clue }, none)
  | .Clue clue (some contestant) => ({ g with phase := .Buzzed clue contestant }, none)
  | _ => (g, some (.WrongPhase g.phase))

/-- Embeds `Game::indicate_contestant` from `src/libaitfoaq/src/lib.rs`: sets every
contestant's `indicate` flag to whether its index equals the handle.  Its Rust
signature returns `Result`, but no path of the body produces an error. -/
def Game.indicate_contestant (g : Game) (contestant_handle : ContestantHandle) : Game :=
  { g with contestants := g.contestants.mapIdx fun i c => { c with indicate := i == contestant_handle } }

/-- Embeds `Game::buzz` from `src/libaitfoaq/src/lib.rs`.  In `Buzzing` the handle is
passed to `indicate_contestant` (which cannot fail) and the phase becomes
`Buzzed` carrying the handle as-is; in `Connecting`/`Score` the handle is
looked up (`ContestantNotFound` if absent) and its `indicate` flag toggled. -/
def Game.buzz (g : Game) (contestant_index : ContestantHandle) : Game × Option Error :=
  match g.phase with
  | .Buzzing clue =>
    ({ g.indicate_contestant contestant_index with phase := .Buzzed clue contestant_index }, none)
  | .Connecting =>
    match g.contestants.get? contestant_index with
    | none => (g, some .ContestantNotFound)
    | some c =>
      ({ g with contestants := g.contestants.set contestant_index { c with indicate := !c.indicate } }, none)
  | .Score =>
    match g.contestants.get? contestant_index with
    | none => (g, some .ContestantNotFound)
    | some c =>
      ({ g with contestants := g.contestants.set contestant_index { c with indicate := !c.indicate } }, none)
  | _ => (g, some (.WrongPhase g.phase))

/-- Embeds `Game::set_wage` from `src/libaitfoaq/src/lib.rs`. -/
def Game.set_wage (g : Game) (points : Points) : Game × Option Error :=
  match g.phase with
  | .Waging clue contestant => ({ g with phase := .Clue clue (some contestant) }, none)
  | _ => (g, some (.WrongPhase g.phase))

/-- Embeds `Game::accept_answer` from `src/libaitfoaq/src/lib.rs`. -/
def Game.accept_answer (g : Game) : Game × Option Error :=
  match g.phase with
  | .Buzzed clue contestant =>
    match g.board.get clue with
    | .error e => (g, some e)
    | .ok cl =>
      match g.contestants.get? contestant with
      | none => (g, some .ContestantNotFound)
      | some c =>
        ({ g with
            contestants := g.contestants.set contestant
              { c with points := c.points + cl.points, indicate := false },
            phase := .Resolution clue contestant false },
         none)
  | _ => (g, some (.WrongPhase g.phase))

/-- Embeds `Game::reject_answer` from `src/libaitfoaq/src/lib.rs`. -/
def Game.reject_answer (g : Game) : Game × Option Error :=
  match g.phase with
  | .Buzzed clue contestant =>
    match g.board.get clue with
    | .error e => (g, some e)
    | .ok cl =>
      match g.contestants.get? contestant with
      | none => (g, some .ContestantNotFound)
      | some c =>
        ({ g with
            contestants := g.contestants.set contestant
              { c with points := c.points - cl.points, indicate := false },
            phase := .Buzzing clue },
         none)
  | _ => (g, some (.WrongPhase g.phase))

/-- Embeds `Game::reveal_hint` from `src/libaitfoaq/src/lib.rs`. -/
def Game.reveal_hint (g : Game) : Game × Option Error :=
  match g.phase with
  | .Resolution clue contestant _ =>
    ({ g with phase := .Resolution clue contestant true }, none)
  | _ => (g, some (.WrongPhase g.phase))

/-- The condition tested by `Game::next_or_end`: every clue of every category
has `solved == true`. -/
def Board.all_solved (b : Board) : Bool :=
  b.categories.all fun c => c.clues.all (·.solved)

/-- Embeds `Game::next_or_end` from `src/libaitfoaq/src/lib.rs`: reads the (already
updated) board; if every clue is solved the phase is `Score`, otherwise
`Picking` with the given contestant or a fresh random draw. -/
def Game.next_or_end (rnd : Nat) (g : Game) (contestant : Option ContestantHandle) : GamePhase :=
  if g.board.all_solved then .Score
  else .Picking (contestant.getD (g.random_contestant rnd))

/-- Embeds `Game::finish_clue` from `src/libaitfoaq/src/lib.rs`: marks the phase's
clue solved, computes the next phase per the current variant, then clears
every `indicate` flag. -/
def Game.finish_clue (rnd : Nat) (g : Game) : Game × Option Error :=
  match g.phase with
  | .Clue clue exclusive =>
    match g.board.mark_solved clue with
    | .error e => (g, some e)
    | .ok b =>
      let g' : Game := { g with
        board := b,
        phase := .Resolution clue (exclusive.getD (g.random_contestant rnd)) false }
      ({ g' with contestants := g'.contestants.map fun c => { c with indicate := false } }, none)
  | .Buzzing clue =>
    match g.board.mark_solved clue with
    | .error e => (g, some e)
    | .ok b =>
      let g' : Game := { g with
        board := b,
        phase := .Resolution clue (g.random_contestant rnd) false }
      ({ g' with contestants := g'.contestants.map fun c => { c with indicate := false } }, none)
  | .Buzzed clue contestant =>
    match g.board.mark_solved clue with
    | .error e => (g, some e)
    | .ok b =>
      let g' : Game := { g with board := b, phase := .Resolution clue contestant false }
      ({ g' with contestants := g'.contestants.map fun c => { c with indicate := false } }, none)
  | .Resolution clue contestant _ =>
    match g.board.mark_solved clue with
    | .error e => (g, some e)
    | .ok b =>
      let gb : Game := { g with board := b }
      let g' : Game := { gb with phase := gb.next_or_end rnd (some contestant) }
      ({ g' with contestants := g'.contestants.map fun c => { c with indicate := false } }, none)
  | _ => (g, some (.WrongPhase g.phase))

/-- Outcome of one `Game::apply` call: success, a returned `Error`, or the
`todo!()` panic of the catch-all arm. -/
inductive RustResult where
  | ok
  | err (e : Error)
  | diverged
deriving DecidableEq

/-- Embeds `Game::apply` from `src/libaitfoaq/src/lib.rs`: dispatch on the event.
`Settings` falls into the `_ => todo!("other events")` arm, which aborts
(modelled as `RustResult.diverged` with the state untouched).
`AwardPoints`/`RevokePoints` call `modify_score` with the points positive
resp. negated.  The pair returned is the post-state (the mutated `self`) and
the call's result. -/
def Game.apply (rnd : Nat) (g : Game) (e : Event) : Game × RustResult :=
  let lift : Game × Option Error → Game × RustResult := fun r =>
    match r with
    | (g', none) => (g', .ok)
    | (g', some er) => (g', .err er)
  match e with
  | .Settings => (g, .diverged)
  | .LoadBoard board => lift (g.load_board board)
  | .OpenLobby => lift g.open_lobby
  | .ConnectContestant name_hint => lift (g.connect_contestant name_hint)
  | .ReconnectContestant contestant => lift (g.reconnect_contestant contestant)
  | .DisconnectContestant contestant => lift (g.disconnect_contestant contestant)
  | .NameContestant index name => lift (g.name_contestant index name)
  | .AwardPoints contestant points => lift (g.modify_score contestant points)
  | .RevokePoints contestant points => lift (g.modify_score contestant (-1 * points))
  | .StartGame => lift (g.start_game rnd)
  | .Pick clue => lift (g.pick clue)
  | .ClueFullyShown => lift g.clue_fully_shown
  | .Buzz contestant => lift (g.buzz contestant)
  | .SetWage points => lift (g.set_wage points)
  | .AcceptAnswer => lift g.accept_answer
  | .RejectAnswer => lift g.reject_answer
  | .RevealHint => lift g.reveal_hint
  | .FinishClue => lift (g.finish_clue rnd)

/-- Phase discriminator used to state the guard table. -/
def GamePhase.isPreparing : GamePhase → Bool
  | .Preparing => true
  | _ => false

/-- Phase discriminator used to state the guard table. -/
def GamePhase.isConnecting : GamePhase → Bool
  | .Connecting => true
  | _ => false

/-- Phase discriminator used to state the guard table. -/
def GamePhase.isPicking : GamePhase → Bool
  | .Picking _ => true
  | _ => false

/-- Phase discriminator used to state the guard table. -/
def GamePhase.isWaging : GamePhase → Bool
  | .Waging _ _ => true
  | _ => false

/-- Phase discriminator used to state the guard table. -/
def GamePhase.isClue : GamePhase → Bool
  | .Clue _ _ => true
  | _ => false

/-- Phase discriminator used to state the guard table. -/
def GamePhase.isBuzzing : GamePhase → Bool
  | .Buzzing _ => true
  | _ => false

/-- Phase discriminator used to state the guard table. -/
def GamePhase.isBuzzed : GamePhase → Bool
  | .Buzzed _ _ => true
  | _ => false

/-- Phase discriminator used to state the guard table. -/
def GamePhase.isResolution : GamePhase → Bool
  | .Resolution _ _ _ => true
  | _ => false

/-- Phase discriminator used to state the guard table. -/
def GamePhase.isScore : GamePhase → Bool
  | .Score => true
  | _ => false

/-- The phase guard of each command, read off the `matches!` / `match` guards
of the transition methods in `src/libaitfoaq/src/lib.rs`:
`legal_in_phase e p = false` exactly when the method for `e` immediately
returns `Err(WrongPhase)` in phase `p`.  The handle-carrying registry commands
(`DisconnectContestant`, `ReconnectContestant`, `NameContestant`,
`AwardPoints`, `RevokePoints`) have no phase guard at all.  `Settings` has no
implemented transition; its row follows the doc comment in
`src/libaitfoaq/src/events.rs` ("Only allowed in Preparing"). -/
def legal_in_phase : Event → GamePhase → Bool
  | .Settings, p => p.isPreparing
  | .LoadBoard _, p => p.isPreparing
  | .OpenLobby, p => p.isPreparing
  | .ConnectContestant _, p => p.isConnecting
  | .DisconnectContestant _, _ => true
  | .ReconnectContestant _, _ => true
  | .NameContestant _ _, _ => true
  | .AwardPoints _ _, _ => true
  | .RevokePoints _ _, _ => true
  | .StartGame, p => p.isConnecting
  | .Pick _, p => p.isPicking
  | .SetWage _, p => p.isWaging
  | .ClueFullyShown, p => p.isClue
  | .Buzz _, p => p.isBuzzing || p.isConnecting || p.isScore
  | .AcceptAnswer, p => p.isBuzzed
  | .RejectAnswer, p => p.isBuzzed
  | .RevealHint, p => p.isResolution
  | .FinishClue, p => p.isClue || p.isBuzzing || p.isBuzzed || p.isResolution

/-- The externally observable side effects of one iteration of
`State::process` in `src/server/src/state.rs`. -/
inductive Action where
  | journal_append (e : Event)
  | respond_ok (s : GameState)
  | respond_err (e : Error)
  | publish (s : GameState)
deriving DecidableEq

/-- One iteration of `State::process` from `src/server/src/state.rs`, with
the dequeued command `e` in hand: on `Ok(new_state)` the event is appended to
the journal (`write_to_journal`), then the submitter's oneshot channel
receives `Ok(new_state)`, then the snapshot is published with
`out_tx.send_replace`; on `Err(error)` only the submitter's channel receives
`Err(error)`.  The returned list records those effects in program order.  If
`apply` aborts (the `todo!()` arm), the task dies emitting nothing. -/
def process_step (rnd : Nat) (g : Game) (e : Event) : Game × List Action :=
  match Game.apply rnd g e with
  | (g', .ok) =>
    (g', [.journal_append e, .respond_ok g'.get_game_state, .publish g'.get_game_state])
  | (g', .err er) => (g', [.respond_err er])
  | (g', .diverged) => (g', [])

/-- Apply a list of (entropy, event) pairs in order, requiring every command
to be accepted; `none` as soon as one is rejected or aborts.  A journal is by
construction such a fully-accepted sequence (`State::process` appends exactly
the accepted events). -/
def apply_all (g : Game) : List (Nat × Event) → Option Game
  | [] => some g
  | (rnd, e) :: rest =>
    match Game.apply rnd g e with
    | (g', .ok) => apply_all g' rest
    | _ => none

/-- The replay half of `State::with_journal_and_token` in
`src/server/src/state.rs`: apply every journaled event from a fresh
`Game::new` (fail-fast: any rejection is fatal), then
`mark_all_contestants_as_disconnected`. -/
def replay_journal (l : List (Nat × Event)) : Option Game :=
  (apply_all Game.new l).map Game.mark_all_contestants_as_disconnected

/-- The actor's model after processing a list of commands in arrival order:
a rejected command leaves the state unchanged (`apply` returns the untouched
state) and the loop continues with the next command. -/
def run_events (g : Game) : List (Nat × Event) → Game
  | [] => g
  | (rnd, e) :: rest => run_events (Game.apply rnd g e).1 rest

/-- States reachable from `Game::new` by any number of `apply` calls
(accepted or not), with arbitrary entropy at each step. -/
inductive Reachable : Game → Prop where
  | init : Reachable Game.new
  | step {g : Game} (rnd : Nat) (e : Event) : Reachable g → Reachable (Game.apply rnd g e).1

/-- The scores column of the contestant registry. -/
def pointsList (g : Game) : List Points :=
  g.contestants.map (·.points)

/-- The point value of the clue carried by a `Buzzed` phase (0 in any other
phase or when the handle does not resolve). -/
def phaseCluePoints (g : Game) : Points :=
  match g.phase with
  | .Buzzed clue _ =>
    match g.board.get clue with
    | .ok c => c.points
    | .error _ => 0
  | _ => 0

/-- An unsolved, non-exclusive, non-wager clue fixture. -/
def testClue (points : Points) : Clue :=
  { clue := "clue", response := "response", hint := "hint", points := points,
    can_wager := false, exclusive := false, solved := false }

/-- A one-category board fixture holding the given clue values. -/
def testBoard (points : List Points) : Board :=
  { categories := [{ title := "cat", clues := points.map testClue }] }

/-- A contestant fixture. -/
def testContestant (points : Points) (indicate : Bool) : Contestant :=
  { name := none, name_hint := "hint", points := points, indicate := indicate, connected := true }

/-- Fixture: a game sitting in the lobby with nobody connected. -/
def lobbyGame : Game :=
  { phase := .Connecting, board := { categories := [] }, contestants := [], options := {} }

/-- Fixture: a lobby with two connected contestants. -/
def connectingGame : Game :=
  { phase := .Connecting, board := testBoard [100],
    contestants := [testContestant 0 true, testContestant 0 false], options := {} }

/-- Journal fixture: open the lobby, connect two contestants, start the game;
the oracle word `r` feeds the `StartGame` entropy draw. -/
def entropyJournal (r : Nat) : List (Nat × Event) :=
  [(0, .OpenLobby), (0, .ConnectContestant "a"), (0, .ConnectContestant "b"),
   (r, .StartGame)]

/-- Command fixture: on a one-category two-clue board, play clue (0,0) to
completion and return to `Picking`. -/
def repickJournal : List (Nat × Event) :=
  [(0, .LoadBoard (testBoard [100, 200])), (0, .OpenLobby), (0, .ConnectContestant "x"),
   (0, .StartGame), (0, .Pick (0, 0)), (0, .FinishClue), (0, .FinishClue)]

/-- Fixture: a single-contestant game open for buzzes on clue (0,0), the one
contestant currently indicated. -/
def buzzingGame : Game :=
  { phase := .Buzzing (0, 0), board := testBoard [100],
    contestants := [testContestant 0 true], options := {} }

/-- Fixture: a full clue lifecycle on a one-clue board containing one
`RejectAnswer` and then one `AcceptAnswer` by the same contestant. -/
def rejectAcceptJournal : List (Nat × Event) :=
  [(0, .LoadBoard (testBoard [100])), (0, .OpenLobby), (0, .ConnectContestant "x"),
   (0, .StartGame), (0, .Pick (0, 0)), (0, .ClueFullyShown), (0, .Buzz 0),
   (0, .RejectAnswer), (0, .Buzz 0), (0, .AcceptAnswer), (0, .FinishClue)]

/-- Fixture: a game in `Resolution` whose one-clue board is fully solved. -/
def solvedResolutionGame : Game :=
  { phase := .Resolution (0, 0) 0 false,
    board := { categories := [{ title := "cat", clues := [{ testClue 100 with solved := true }] }] },
    contestants := [testContestant 0 false], options := {} }

/-- Fixture: a game in `Picking` on a one-clue board. -/
def pickingGame : Game :=
  { phase := .Picking 0, board := testBoard [100],
    contestants := [testContestant 0 false], options := {} }

/-- Fixture: a game in `Buzzed` on a one-clue board. -/
def buzzedGame : Game :=
  { phase := .Buzzed (0, 0) 0, board := testBoard [100],
    contestants := [testContestant 0 true], options := {} }

/-! ### Shared lemmas -/

theorem lift_err {f : Game × Option Error} {g' : Game} {er : Error}
    (h : (match f with
          | (a, none) => (a, RustResult.ok)
          | (a, some e) => (a, RustResult.err e)) = (g', RustResult.err er)) :
    f = (g', some er) := by
  rcases f with ⟨a, _ | e⟩ <;> simp_all

theorem lift_ok {f : Game × Option Error} {g' : Game}
    (h : (match f with
          | (a, none) => (a, RustResult.ok)
          | (a, some e) => (a, RustResult.err e)) = (g', RustResult.ok)) :
    f = (g', none) := by
  rcases f with ⟨a, _ | e⟩ <;> simp_all

theorem load_board_err {g g' : Game} {b : Board} {er : Error}
    (h : g.load_board b = (g', some er)) : g' = g := by
  unfold Game.load_board at h
  (repeat' split at h) <;> simp_all

theorem open_lobby_err {g g' : Game} {er : Error}
    (h : g.open_lobby = (g', some er)) : g' = g := by
  unfold Game.open_lobby at h
  (repeat' split at h) <;> simp_all

theorem connect_contestant_err {g g' : Game} {s : String} {er : Error}
    (h : g.connect_contestant s = (g', some er)) : g' = g := by
  unfold Game.connect_contestant at h
  (repeat' split at h) <;> simp_all

theorem reconnect_contestant_err {g g' : Game} {k : ContestantHandle} {er : Error}
    (h : g.reconnect_contestant k = (g', some er)) : g' = g := by
  unfold Game.reconnect_contestant at h
  (repeat' split at h) <;> simp_all

theorem disconnect_contestant_err {g g' : Game} {k : ContestantHandle} {er : Error}
    (h : g.disconnect_contestant k = (g', some er)) : g' = g := by
  unfold Game.disconnect_contestant at h
  (repeat' split at h) <;> simp_all

theorem name_contestant_err {g g' : Game} {k : ContestantHandle} {s : String} {er : Error}
    (h : g.name_contestant k s = (g', some er)) : g' = g := by
  unfold Game.name_contestant at h
  (repeat' split at h) <;> simp_all

theorem modify_score_err {g g' : Game} {k : ContestantHandle} {p : Points} {er : Error}
    (h : g.modify_score k p = (g', some er)) : g' = g := by
  unfold Game.modify_score at h
  (repeat' split at h) <;> simp_all

theorem start_game_err {rnd : Nat} {g g' : Game} {er : Error}
    (h : g.start_game rnd = (g', some er)) : g' = g := by
  unfold Game.start_game at h
  (repeat' split at h) <;> simp_all

theorem pick_err {g g' : Game} {cl : ClueHandle} {er : Error}
    (h : g.pick cl = (g', some er)) : g' = g := by
  unfold Game.pick at h
  (repeat' split at h) <;> simp_all

theorem clue_fully_shown_err {g g' : Game} {er : Error}
    (h : g.clue_fully_shown = (g', some er)) : g' = g := by
  unfold Game.clue_fully_shown at h
  (repeat' split at h) <;> simp_all

theorem buzz_err {g g' : Game} {k : ContestantHandle} {er : Error}
    (h : g.buzz k = (g', some er)) : g' = g := by
  unfold Game.buzz at h
  (repeat' split at h) <;> simp_all

theorem set_wage_err {g g' : Game} {p : Points} {er : Error}
    (h : g.set_wage p = (g', some er)) : g' = g := by
  unfold Game.set_wage at h
  (repeat' split at h) <;> simp_all

theorem accept_answer_err {g g' : Game} {er : Error}
    (h : g.accept_answer = (g', some er)) : g' = g := by
  unfold Game.accept_answer at h
  (repeat' split at h) <;> simp_all

theorem reject_answer_err {g g' : Game} {er : Error}
    (h : g.reject_answer = (g', some er)) : g' = g := by
  unfold Game.reject_answer at h
  (repeat' split at h) <;> simp_all

theorem reveal_hint_err {g g' : Game} {er : Error}
    (h : g.reveal_hint = (g', some er)) : g' = g := by
  unfold Game.reveal_hint at h
  (repeat' split at h) <;> simp_all

theorem finish_clue_err {rnd : Nat} {g g' : Game} {er : Error}
    (h : g.finish_clue rnd = (g', some er)) : g' = g := by
  unfold Game.finish_clue at h
  (repeat' split at h) <;> simp_all

/-- Every rejection path of every transition returns before mutating: a
rejected `apply` call leaves the model exactly as it was. -/
theorem apply_err_state {rnd : Nat} {g g' : Game} {e : Event} {er : Error}
    (h : Game.apply rnd g e = (g', RustResult.err er)) : g' = g := by
  cases e <;> simp only [Game.apply] at h
  case Settings => simp_all
  case LoadBoard b => exact load_board_err (lift_err h)
  case OpenLobby => exact open_lobby_err (lift_err h)
  case ConnectContestant s => exact connect_contestant_err (lift_err h)
  case ReconnectContestant k => exact reconnect_contestant_err (lift_err h)
  case DisconnectContestant k => exact disconnect_contestant_err (lift_err h)
  case NameContestant k s => exact name_contestant_err (lift_err h)
  case StartGame => exact start_game_err (lift_err h)
  case Pick cl => exact pick_err (lift_err h)
  case SetWage p => exact set_wage_err (lift_err h)
  case ClueFullyShown => exact clue_fully_shown_err (lift_err h)
  case Buzz k => exact buzz_err (lift_err h)
  case AcceptAnswer => exact accept_answer_err (lift_err h)
  case RejectAnswer => exact reject_answer_err (lift_err h)
  case RevealHint => exact reveal_hint_err (lift_err h)
  case FinishClue => exact finish_clue_err (lift_err h)
  case AwardPoints k p => exact modify_score_err (lift_err h)
  case RevokePoints k p => exact modify_score_err (lift_err h)

theorem lift_ne_diverged {f : Game × Option Error} {g' : Game}
    (h : (match f with
          | (a, none) => (a, RustResult.ok)
          | (a, some e) => (a, RustResult.err e)) = (g', RustResult.diverged)) : False := by
  rcases f with ⟨a, _ | e⟩ <;> simp_all

/-- Only the `todo!()` arm aborts, and it runs no mutation first. -/
theorem apply_diverged_state {rnd : Nat} {g g' : Game} {e : Event}
    (h : Game.apply rnd g e = (g', RustResult.diverged)) : g' = g ∧ e = Event.Settings := by
  cases e <;> simp only [Game.apply] at h
  case Settings => simp_all
  all_goals exact absurd h (fun hc => lift_ne_diverged hc)

/-- An accepted command either leaves the phase alone or installs a phase
that is not `Waging`; in the latter case the starting phase was not `Score`.
(No transition of `src/libaitfoaq/src/lib.rs` constructs `Waging`, and no
transition guard admits `Score`.) -/
theorem apply_ok_phase {rnd : Nat} {g g' : Game} {e : Event}
    (h : Game.apply rnd g e = (g', RustResult.ok)) :
    g'.phase = g.phase ∨ (g.phase ≠ GamePhase.Score ∧ g'.phase.isWaging = false) := by
  cases e <;> simp only [Game.apply] at h
  case Settings => simp_all
  all_goals (replace h := lift_ok h)
  all_goals (simp only [Game.load_board, Game.open_lobby, Game.connect_contestant,
    Game.reconnect_contestant, Game.disconnect_contestant, Game.name_contestant,
    Game.modify_score, Game.start_game, Game.pick, Game.clue_fully_shown, Game.buzz,
    Game.set_wage, Game.accept_answer, Game.reject_answer, Game.reveal_hint,
    Game.finish_clue] at h)
  all_goals ((repeat' split at h) <;>
    cases h <;> simp_all [GamePhase.isWaging, Game.next_or_end] <;>
    (repeat' split) <;> simp_all [GamePhase.isWaging])

/-- Every command that is outside the current phase's guard (and is not the
unimplemented `Settings`) is rejected with `WrongPhase` carrying the current
phase, and the returned state is the input state. -/
theorem apply_wrong_phase (rnd : Nat) (g : Game) (e : Event)
    (hs : e ≠ Event.Settings) (hl : legal_in_phase e g.phase = false) :
    Game.apply rnd g e = (g, RustResult.err (Error.WrongPhase g.phase)) := by
  cases e <;>
    cases hph : g.phase <;>
    simp_all [Game.apply, legal_in_phase, Game.load_board, Game.open_lobby,
      Game.connect_contestant, Game.reconnect_contestant, Game.disconnect_contestant,
      Game.name_contestant, Game.modify_score, Game.start_game, Game.pick,
      Game.clue_fully_shown, Game.buzz, Game.set_wage, Game.accept_answer,
      Game.reject_answer, Game.reveal_hint, Game.finish_clue,
      GamePhase.isPreparing, GamePhase.isConnecting, GamePhase.isPicking,
      GamePhase.isWaging, GamePhase.isClue, GamePhase.isBuzzing, GamePhase.isBuzzed,
      GamePhase.isResolution, GamePhase.isScore]

theorem all_set_of_all {α : Type} (l : List α) (p : α → Bool) (i : Nat) (a : α)
    (h : l.all p = true) (ha : p a = true) : (l.set i a).all p = true := by
  rw [List.all_eq_true] at *
  intro x hx
  rcases List.mem_or_eq_of_mem_set hx with h1 | h2
  · exact h x h1
  · subst h2; exact ha

/-- Marking one more clue solved preserves an all-solved board. -/
theorem mark_solved_all_solved {b b' : Board} {cl : ClueHandle}
    (hm : b.mark_solved cl = .ok b') (hall : b.all_solved = true) :
    b'.all_solved = true := by
  unfold Board.mark_solved at hm
  split at hm
  · exact Except.noConfusion hm
  next x cat hcat =>
  split at hm
  · exact Except.noConfusion hm
  next y c hclue =>
  cases hm
  unfold Board.all_solved at hall ⊢
  refine all_set_of_all _ _ _ _ hall ?_
  have hcatall : (cat.clues.all fun x => x.solved) = true := by
    rw [List.all_eq_true] at hall
    exact hall cat (List.get?_mem hcat)
  exact all_set_of_all _ _ _ _ hcatall rfl

/-- Once the phase is `Score` no command changes it. -/
theorem apply_score_stays {rnd : Nat} {g : Game} {e : Event}
    (h : g.phase = GamePhase.Score) : (Game.apply rnd g e).1.phase = GamePhase.Score := by
  rcases happ : Game.apply rnd g e with ⟨g', res⟩
  cases res with
  | ok =>
    rcases apply_ok_phase happ with h1 | h2
    · simp [h1, h]
    · exact absurd h h2.1
  | err e => rw [apply_err_state happ]; exact h
  | diverged => rw [(apply_diverged_state happ).1]; exact h

/-- Phase `Score` stays over any processed command sequence. -/
theorem run_events_score {g : Game} (h : g.phase = GamePhase.Score) :
    ∀ l : List (Nat × Event), (run_events g l).phase = GamePhase.Score := by
  intro l
  induction l generalizing g with
  | nil => exact h
  | cons a rest ih => exact ih (apply_score_stays h)

theorem map_mapIdx_points (l : List Contestant) (f : Nat → Contestant → Contestant)
    (hf : ∀ i c, (f i c).points = c.points) :
    (l.mapIdx f).map (·.points) = l.map (·.points) := by
  induction l generalizing f with
  | nil => simp
  | cons a t ih => simp [List.mapIdx_cons, hf, ih]

theorem set_get_self (l : List Points) (k : Nat) (v : Points)
    (h : l.get? k = some v) : l.set k v = l := by
  induction l generalizing k with
  | nil => simp at h
  | cons a t ih =>
    cases k with
    | zero => simp_all
    | succ k => simp_all [List.set]

theorem map_points_indicate (l : List Contestant) (k : Nat) :
    (l.mapIdx fun i c => { c with indicate := i == k }).map (·.points) = l.map (·.points) :=
  map_mapIdx_points l _ (fun _ _ => rfl)

/-! ### Claim theorems -/

/-- C1 (amended): for every game state and every command other than
`Settings` that is outside the current phase's legal-successor set, `apply`
returns `WrongPhase` carrying the current phase and the model — board,
contestants, phase, options — is exactly the state it started from. -/
theorem c1_wrong_phase_rejection (rnd : Nat) (g : Game) (e : Event)
    (hs : e ≠ Event.Settings) (hl : legal_in_phase e g.phase = false) :
    Game.apply rnd g e = (g, RustResult.err (Error.WrongPhase g.phase)) :=
  apply_wrong_phase rnd g e hs hl

/-- C1 witness: `Pick` in the fresh `Preparing` state is rejected with
`WrongPhase{Preparing}` and the state is untouched. -/
theorem c1_wrong_phase_rejection_witness :
    Event.Pick (0, 0) ≠ Event.Settings ∧
    legal_in_phase (Event.Pick (0, 0)) Game.new.phase = false ∧
    Game.apply 0 Game.new (Event.Pick (0, 0)) =
      (Game.new, RustResult.err (Error.WrongPhase GamePhase.Preparing)) :=
  ⟨by decide, rfl, c1_wrong_phase_rejection 0 Game.new (Event.Pick (0, 0)) (by decide) rfl⟩

/-- C1 counterexample: `Settings` submitted in the `Connecting` phase is not
in that phase's legal-successor set, yet `apply` does not return
`WrongPhase{Connecting}` — it falls into the `todo!("other events")` arm and
aborts. -/
theorem c1_settings_aborts :
    legal_in_phase Event.Settings lobbyGame.phase = false ∧
    Game.apply 0 lobbyGame Event.Settings = (lobbyGame, RustResult.diverged) :=
  ⟨rfl, rfl⟩

/-- C10: in every state reachable from `Game::new` the phase is never
`Waging`, and `SetWage` is rejected with `WrongPhase` carrying the current
phase, leaving the state untouched. -/
theorem c10_waging_unreachable (g : Game) (h : Reachable g) :
    g.phase.isWaging = false ∧
    ∀ (rnd : Nat) (p : Points),
      Game.apply rnd g (Event.SetWage p) = (g, RustResult.err (Error.WrongPhase g.phase)) := by
  have hw : g.phase.isWaging = false := by
    induction h with
    | init => rfl
    | step rnd e hg ih =>
      rename_i g0
      rcases happ : Game.apply rnd g0 e with ⟨g2, res⟩
      show g2.phase.isWaging = false
      cases res with
      | ok =>
        rcases apply_ok_phase happ with h1 | h2
        · rw [h1]; exact ih
        · exact h2.2
      | err er => rw [apply_err_state happ]; exact ih
      | diverged => rw [(apply_diverged_state happ).1]; exact ih
  exact ⟨hw, fun rnd p => apply_wrong_phase rnd g _ (fun hcon => Event.noConfusion hcon) hw⟩

/-- C10 witness: at the initial state `SetWage 5` is rejected with
`WrongPhase{Preparing}`. -/
theorem c10_waging_unreachable_witness :
    Game.new.phase.isWaging = false ∧
    Game.apply 0 Game.new (Event.SetWage 5) =
      (Game.new, RustResult.err (Error.WrongPhase GamePhase.Preparing)) := by
  have h := c10_waging_unreachable Game.new Reachable.init
  exact ⟨h.1, h.2 0 5⟩

/-- C9: in one actor processing step, a successful `apply` journals the
command, answers the submitter with the new snapshot and publishes that
snapshot, in that order; a failed `apply` answers the submitter with the
rejection only — no journal append and no publication — and the model is the
one from before the command. -/
theorem c9_process_step (rnd : Nat) (g : Game) (e : Event) :
    (∀ g', Game.apply rnd g e = (g', RustResult.ok) →
      process_step rnd g e =
        (g', [Action.journal_append e, Action.respond_ok g'.get_game_state,
              Action.publish g'.get_game_state]))
    ∧ (∀ g' er, Game.apply rnd g e = (g', RustResult.err er) →
      process_step rnd g e = (g, [Action.respond_err er])) := by
  constructor
  · intro g' h
    simp [process_step, h]
  · intro g' er h
    have hg := apply_err_state h
    subst hg
    simp [process_step, h]

/-- C9 witness: processing `OpenLobby` from the fresh state journals it,
responds and publishes. -/
theorem c9_process_step_witness :
    Game.apply 0 Game.new Event.OpenLobby =
      ((Game.apply 0 Game.new Event.OpenLobby).1, RustResult.ok) ∧
    process_step 0 Game.new Event.OpenLobby =
      ((Game.apply 0 Game.new Event.OpenLobby).1,
       [Action.journal_append Event.OpenLobby,
        Action.respond_ok (Game.apply 0 Game.new Event.OpenLobby).1.get_game_state,
        Action.publish (Game.apply 0 Game.new Event.OpenLobby).1.get_game_state]) :=
  ⟨rfl, (c9_process_step 0 Game.new Event.OpenLobby).1 _ rfl⟩

/-- C6: in any state whose board is fully solved and whose phase is
`Resolution`, an accepted `FinishClue` moves the phase to `Score`, and from
then on — after any further processed command sequence — every `Pick` is
rejected with `WrongPhase{Score}` and changes nothing. -/
theorem c6_all_solved_finish_to_score (rnd : Nat) (g g' : Game) (clue : ClueHandle)
    (c : ContestantHandle) (sh : Bool)
    (hph : g.phase = GamePhase.Resolution clue c sh)
    (hall : g.board.all_solved = true)
    (hok : Game.apply rnd g Event.FinishClue = (g', RustResult.ok)) :
    g'.phase = GamePhase.Score ∧
    ∀ (gs : Game), gs.phase = GamePhase.Score →
      ∀ (l : List (Nat × Event)) (rnd2 : Nat) (cl2 : ClueHandle),
        Game.apply rnd2 (run_events gs l) (Event.Pick cl2) =
          (run_events gs l, RustResult.err (Error.WrongPhase GamePhase.Score)) := by
  simp only [Game.apply] at hok
  replace hok := lift_ok hok
  unfold Game.finish_clue at hok
  rw [hph] at hok
  (repeat' split at hok) <;> (try (exfalso; simp_all; done))
  rename_i x1 clue2 c2 sh2 hphq x2 b hb
  injection hphq with e1 e2 e3
  subst e1
  subst e2
  cases hok
  have hsc : (Game.next_or_end rnd { g with board := b } (some c)) = GamePhase.Score := by
    unfold Game.next_or_end
    simp [mark_solved_all_solved hb hall]
  refine ⟨hsc, fun gs hgs l rnd2 cl2 => ?_⟩
  have hrun : (run_events gs l).phase = GamePhase.Score := run_events_score hgs l
  have hwp := apply_wrong_phase rnd2 (run_events gs l) (Event.Pick cl2)
    (fun hcon => Event.noConfusion hcon) (by simp [legal_in_phase, hrun, GamePhase.isPicking])
  rw [hrun] at hwp
  exact hwp

/-- C6 witness: from `solvedResolutionGame`, `FinishClue` lands in `Score`
and an immediate `Pick` is rejected with `WrongPhase{Score}`. -/
theorem c6_all_solved_finish_to_score_witness :
    solvedResolutionGame.phase = GamePhase.Resolution (0, 0) 0 false ∧
    solvedResolutionGame.board.all_solved = true ∧
    (Game.apply 0 solvedResolutionGame Event.FinishClue).1.phase = GamePhase.Score ∧
    Game.apply 0 (Game.apply 0 solvedResolutionGame Event.FinishClue).1 (Event.Pick (0, 0)) =
      ((Game.apply 0 solvedResolutionGame Event.FinishClue).1,
       RustResult.err (Error.WrongPhase GamePhase.Score)) := by
  have happ : Game.apply 0 solvedResolutionGame Event.FinishClue =
      ((Game.apply 0 solvedResolutionGame Event.FinishClue).1, RustResult.ok) := rfl
  have h := c6_all_solved_finish_to_score 0 solvedResolutionGame _ (0, 0) 0 false rfl rfl happ
  exact ⟨rfl, rfl, h.1, h.2 _ h.1 [] 0 (0, 0)⟩

/-- C7: `StartGame` is rejected with `WrongPhase` outside `Connecting`; in
`Connecting` with an empty registry it is rejected with `NoContestants` (the
code rejects unconditionally — there is no option to allow an empty start);
in `Connecting` with a non-empty registry it succeeds, the phase becomes
`Picking` with the drawn handle `rnd % len`, that handle indexes a registered
contestant, and every contestant's `indicate` flag is cleared. -/
theorem c7_start_game (rnd : Nat) (g : Game) :
    (g.phase.isConnecting = false →
      Game.apply rnd g Event.StartGame = (g, RustResult.err (Error.WrongPhase g.phase)))
    ∧ (g.phase = GamePhase.Connecting → g.contestants = [] →
      Game.apply rnd g Event.StartGame = (g, RustResult.err Error.NoContestants))
    ∧ (g.phase = GamePhase.Connecting → g.contestants ≠ [] →
      Game.apply rnd g Event.StartGame =
        ({ g with phase := GamePhase.Picking (rnd % g.contestants.length),
                  contestants := g.contestants.map fun c => { c with indicate := false } },
         RustResult.ok)
      ∧ rnd % g.contestants.length < g.contestants.length
      ∧ ∀ c ∈ (Game.apply rnd g Event.StartGame).1.contestants, c.indicate = false) := by
  refine ⟨?_, ?_, ?_⟩
  · intro hnc
    exact apply_wrong_phase rnd g _ (fun hcon => Event.noConfusion hcon) hnc
  · intro hph hemp
    simp [Game.apply, Game.start_game, hph, hemp]
  · intro hph hne
    have happ : Game.apply rnd g Event.StartGame =
        ({ g with phase := GamePhase.Picking (rnd % g.contestants.length),
                  contestants := g.contestants.map fun c => { c with indicate := false } },
         RustResult.ok) := by
      simp [Game.apply, Game.start_game, hph, List.isEmpty_iff, hne, Game.random_contestant]
    refine ⟨happ, Nat.mod_lt _ (List.length_pos.mpr hne), ?_⟩
    rw [happ]
    intro c hc
    simp only [List.mem_map] at hc
    rcases hc with ⟨c0, _, rfl⟩
    rfl

/-- C7 witness: from a two-contestant lobby with entropy 3, `StartGame`
succeeds, picks contestant 3 % 2 = 1 < 2 and clears both `indicate` flags. -/
theorem c7_start_game_witness :
    connectingGame.phase = GamePhase.Connecting ∧
    connectingGame.contestants ≠ [] ∧
    Game.apply 3 connectingGame Event.StartGame =
      ({ connectingGame with
          phase := GamePhase.Picking (3 % connectingGame.contestants.length),
          contestants := connectingGame.contestants.map fun c => { c with indicate := false } },
       RustResult.ok) ∧
    3 % connectingGame.contestants.length < connectingGame.contestants.length := by
  have h := ((c7_start_game 3 connectingGame).2.2 rfl (by decide))
  exact ⟨rfl, by decide, h.1, h.2.1⟩

/-- C8: from `Picking{p}`, `Pick{h}` on a handle that resolves to clue `cl`
moves to `Clue{h, exclusive}` with `exclusive = some p` exactly when
`cl.exclusive`, else `none`; an unknown handle is rejected with
`ClueNotFound` leaving the state unchanged; `ClueFullyShown` then sends
`Clue{h, none}` to `Buzzing{h}` and `Clue{h, some p}` straight to
`Buzzed{h, p}`, skipping `Buzzing`. -/
theorem c8_pick_and_clue_fully_shown :
    (∀ (rnd : Nat) (g : Game) (p : ContestantHandle) (hd : ClueHandle) (cl : Clue),
      g.phase = GamePhase.Picking p → g.board.get hd = .ok cl →
      Game.apply rnd g (Event.Pick hd) =
        ({ g with phase := GamePhase.Clue hd (if cl.exclusive then some p else none) },
         RustResult.ok))
    ∧ (∀ (rnd : Nat) (g : Game) (p : ContestantHandle) (hd : ClueHandle),
      g.phase = GamePhase.Picking p → g.board.get hd = .error Error.ClueNotFound →
      Game.apply rnd g (Event.Pick hd) = (g, RustResult.err Error.ClueNotFound))
    ∧ (∀ (rnd : Nat) (g : Game) (hd : ClueHandle),
      g.phase = GamePhase.Clue hd none →
      Game.apply rnd g Event.ClueFullyShown =
        ({ g with phase := GamePhase.Buzzing hd }, RustResult.ok))
    ∧ (∀ (rnd : Nat) (g : Game) (hd : ClueHandle) (p : ContestantHandle),
      g.phase = GamePhase.Clue hd (some p) →
      Game.apply rnd g Event.ClueFullyShown =
        ({ g with phase := GamePhase.Buzzed hd p }, RustResult.ok)) := by
  refine ⟨?_, ?_, ?_, ?_⟩
  · intro rnd g p hd cl hph hget
    simp [Game.apply, Game.pick, hph, hget]
  · intro rnd g p hd hph hget
    simp [Game.apply, Game.pick, hph, hget]
  · intro rnd g hd hph
    simp [Game.apply, Game.clue_fully_shown, hph]
  · intro rnd g hd p hph
    simp [Game.apply, Game.clue_fully_shown, hph]

/-- C8 witness: on `pickingGame` the resolving handle (0,0) (a non-exclusive
clue) yields `Clue{(0,0), none}`, the unknown handle (5,5) is rejected with
`ClueNotFound`, and `ClueFullyShown` then opens buzzing. -/
theorem c8_pick_and_clue_fully_shown_witness :
    pickingGame.phase = GamePhase.Picking 0 ∧
    pickingGame.board.get (0, 0) = .ok (testClue 100) ∧
    Game.apply 0 pickingGame (Event.Pick (0, 0)) =
      ({ pickingGame with phase := GamePhase.Clue (0, 0) none }, RustResult.ok) ∧
    pickingGame.board.get (5, 5) = .error Error.ClueNotFound ∧
    Game.apply 0 pickingGame (Event.Pick (5, 5)) = (pickingGame, RustResult.err Error.ClueNotFound) ∧
    Game.apply 0 { pickingGame with phase := GamePhase.Clue (0, 0) none } Event.ClueFullyShown =
      ({ pickingGame with phase := GamePhase.Buzzing (0, 0) }, RustResult.ok) := by
  have h1 := c8_pick_and_clue_fully_shown.1 0 pickingGame 0 (0, 0) (testClue 100) rfl rfl
  have h2 := c8_pick_and_clue_fully_shown.2.1 0 pickingGame 0 (5, 5) rfl rfl
  have h3 := c8_pick_and_clue_fully_shown.2.2.1 0
    { pickingGame with phase := GamePhase.Clue (0, 0) none } (0, 0) rfl
  exact ⟨rfl, rfl, by simpa using h1, rfl, h2, by simpa using h3⟩

/-- C2 (the code evaluated at the failing input): the four-command journal
`OpenLobby, ConnectContestant "a", ConnectContestant "b", StartGame` is
accepted in full, but the replayed model's phase depends on the entropy word
the `StartGame` draw reads from the contestants' string addresses: oracle 0
reconstructs `Picking 0`, oracle 1 reconstructs `Picking 1`.  Replay does
force every contestant's `connected` flag to `false`. -/
theorem c2_replay_entropy_divergence :
    (replay_journal (entropyJournal 0)).map Game.phase = some (GamePhase.Picking 0) ∧
    (replay_journal (entropyJournal 1)).map Game.phase = some (GamePhase.Picking 1) ∧
    (replay_journal (entropyJournal 0)).map (fun g => g.contestants.map (·.connected)) =
      some [false, false] :=
  ⟨rfl, rfl, rfl⟩

/-- C3 (the code evaluated at the failing input): after `repickJournal` the
game is back in `Picking 0` with clue (0,0) already `solved`, and a second
`Pick (0,0)` is nevertheless accepted, entering `Clue{(0,0), none}` whose
embedded handle points at a solved clue. -/
theorem c3_solved_clue_repicked :
    (apply_all Game.new repickJournal).map
        (fun g => (g.phase, (g.board.get (0, 0)).map (·.solved))) =
      some (GamePhase.Picking 0, Except.ok true) ∧
    (apply_all Game.new (repickJournal ++ [(0, Event.Pick (0, 0))])).map
        (fun g => (g.phase, (g.board.get (0, 0)).map (·.solved))) =
      some (GamePhase.Clue (0, 0) none, Except.ok true) :=
  ⟨rfl, rfl⟩

/-- C4 (the code evaluated at the failing input): `Buzz{5}` in the `Buzzing`
phase of a game whose registry holds the single handle 0 is accepted rather
than rejected with `ContestantNotFound`: the phase becomes `Buzzed{(0,0), 5}`
carrying the unregistered handle, and the registered contestant's `indicate`
flag is even mutated from `true` to `false` on the way. -/
theorem c4_buzz_unregistered_accepted :
    buzzingGame.contestants.length = 1 ∧
    buzzingGame.contestants.map (·.indicate) = [true] ∧
    (Game.apply 0 buzzingGame (Event.Buzz 5)).2 = RustResult.ok ∧
    (Game.apply 0 buzzingGame (Event.Buzz 5)).1.phase = GamePhase.Buzzed (0, 0) 5 ∧
    (Game.apply 0 buzzingGame (Event.Buzz 5)).1.contestants.map (·.indicate) = [false] :=
  ⟨rfl, rfl, rfl, rfl, rfl⟩

/-- C5 counterexample: a full lifecycle of the 100-point clue (0,0) that
contains one `RejectAnswer` and then one `AcceptAnswer` by the same (only)
contestant ends in `Score` with that contestant's score back at 0: the net
sum of all score deltas over the lifecycle is 0, not plus or minus the
clue's value applied exactly once. -/
theorem c5_reject_accept_nets_zero :
    ((testBoard [100]).get (0, 0)).map (·.points) = Except.ok 100 ∧
    (apply_all Game.new rejectAcceptJournal).map (fun g => (pointsList g, g.phase)) =
      some ([0], GamePhase.Score) :=
  ⟨rfl, rfl⟩

/-- C5 (amended): per accepted command the scores column changes by exactly
one application of the relevant amount: `AcceptAnswer` adds the phase-carried
clue's point value to the buzzed contestant's entry and touches no other,
`RejectAnswer` subtracts it the same way, `AwardPoints`/`RevokePoints` add
resp. subtract their own amount at their handle, `ConnectContestant` appends
a zero score, and every other accepted command leaves all scores unchanged.
Hence over a clue lifecycle the net sum of deltas is (accepted answers minus
rejected answers) times the clue's value, not ±value exactly once. -/
theorem c5_score_delta (rnd : Nat) (g g' : Game) (e : Event)
    (h : Game.apply rnd g e = (g', RustResult.ok)) :
    pointsList g' =
      match e, g.phase with
      | Event.AcceptAnswer, GamePhase.Buzzed _ c =>
        (pointsList g).set c ((pointsList g).getD c 0 + phaseCluePoints g)
      | Event.RejectAnswer, GamePhase.Buzzed _ c =>
        (pointsList g).set c ((pointsList g).getD c 0 - phaseCluePoints g)
      | Event.AwardPoints c p, _ => (pointsList g).set c ((pointsList g).getD c 0 + p)
      | Event.RevokePoints c p, _ => (pointsList g).set c ((pointsList g).getD c 0 + (-1) * p)
      | Event.ConnectContestant _, _ => pointsList g ++ [0]
      | _, _ => pointsList g := by
  cases e <;> simp only [Game.apply] at h
  case Settings =>
    have h2 : RustResult.diverged = RustResult.ok := congrArg Prod.snd h
    exact absurd h2 (by decide)
  all_goals (replace h := lift_ok h)
  all_goals (simp only [Game.load_board, Game.open_lobby, Game.connect_contestant,
    Game.reconnect_contestant, Game.disconnect_contestant, Game.name_contestant,
    Game.modify_score, Game.start_game, Game.pick, Game.clue_fully_shown, Game.buzz,
    Game.indicate_contestant, Game.set_wage, Game.accept_answer, Game.reject_answer,
    Game.reveal_hint, Game.finish_clue] at h)
  all_goals ((repeat' split at h) <;> cases h <;>
    simp_all [pointsList, phaseCluePoints, List.map_set, map_points_indicate,
      List.map_map, List.get?_map, List.getD_eq_getElem?_getD, List.get?_eq_getElem?,
      set_get_self])

/-- C5 witness: accepting the answer on `buzzedGame` pays the 100-point clue
to contestant 0 exactly once, matching the stated delta. -/
theorem c5_score_delta_witness :
    Game.apply 0 buzzedGame Event.AcceptAnswer =
      ((Game.apply 0 buzzedGame Event.AcceptAnswer).1, RustResult.ok) ∧
    pointsList (Game.apply 0 buzzedGame Event.AcceptAnswer).1 = [100] ∧
    (pointsList buzzedGame).set 0 ((pointsList buzzedGame).getD 0 0 + phaseCluePoints buzzedGame)
      = [100] := by
  have h := c5_score_delta 0 buzzedGame _ Event.AcceptAnswer rfl
  exact ⟨rfl, h.trans rfl, rfl⟩

end Aitfoaq
